import Mathlib

/-!
Verification of the hydrogen-bundles SDK core against its specification.

The TypeScript source is shallowly embedded: monetary amounts (decimal
strings parsed with parseFloat before any arithmetic in the source) are
embedded as exact rationals, JavaScript numbers used as counts are embedded
as integers, optional values as Option, and records as structures.  Code
that can throw (array index on a possibly-empty list) returns Option.
-/

namespace HydrogenBundles

/-- Monetary value in parsed numeric form.  In the source the amount is a
decimal string; every use first parses it with parseFloat, so we embed the
amount as the exact rational it denotes. -/
structure Money where
  amount : ℚ
  currencyCode : String
  deriving DecidableEq

/-- Monetary value in display form, as produced by toFixed(2) in the source. -/
structure FormattedMoney where
  amount : String
  currencyCode : String
  deriving DecidableEq

/-- Bundle type tag from types.ts. -/
inductive BundleType where
  | fixed
  | mix_and_match
  deriving DecidableEq

/-- Bundle discount type tag from types.ts. -/
inductive BundleDiscountType where
  | percentage
  | fixed_amount
  | fixed_price
  | custom
  deriving DecidableEq

/-- Availability status tag from types.ts. -/
inductive AvailabilityStatus where
  | available
  | limited
  | out_of_stock
  | preorder
  deriving DecidableEq

/-- Bundle component variant (types.ts BundleComponentVariant).  Display-only
fields (image, selectedOptions) are omitted; no logic reads them. -/
structure BundleComponentVariant where
  id : String
  title : String
  price : Money
  compareAtPrice : Option Money := none
  sku : Option String := none
  availableForSale : Bool
  quantityAvailable : Option Int := none
  deriving DecidableEq

/-- Bundle component (types.ts BundleComponent).  The productImage and
priceOverride display fields are omitted; no logic reads them. -/
structure BundleComponent where
  productId : String
  productTitle : String
  productHandle : String
  variants : List BundleComponentVariant
  defaultVariantId : Option String := none
  quantity : Int
  allowQuantitySelection : Option Bool := none
  minQuantity : Option Int := none
  maxQuantity : Option Int := none
  required : Option Bool := none
  deriving DecidableEq

/-- Bundle pricing configuration (types.ts BundlePricing).  The originalPrice
and savings fields are stored in formatted form by the resolver; bundlePrice
is stored unformatted and is re-parsed by the price calculator. -/
structure BundlePricing where
  discountType : BundleDiscountType
  discountValue : Option ℚ := none
  currencyCode : Option String := none
  originalPrice : Option FormattedMoney := none
  bundlePrice : Option Money := none
  savings : Option FormattedMoney := none
  savingsPercentage : Option ℚ := none
  deriving DecidableEq

/-- Full bundle definition (types.ts BundleDefinition).  The description and
featuredImage display fields are omitted; no logic reads them. -/
structure BundleDefinition where
  id : String
  title : String
  handle : String
  bundleType : BundleType
  components : List BundleComponent
  pricing : BundlePricing
  minSelections : Option Int := none
  maxSelections : Option Int := none
  availableForSale : Bool
  variantId : Option String := none
  deriving DecidableEq

/-- Customer selection for mix-and-match bundles (types.ts BundleSelection). -/
structure BundleSelection where
  productId : String
  variantId : String
  quantity : Int
  deriving DecidableEq

/-- Cart line attribute: a key-value string pair. -/
structure Attr where
  key : String
  value : String
  deriving DecidableEq

/-- Input to addBundleToCart (types.ts AddBundleInput).  customAttributes is a
string record in the source; Object.entries iterates it in insertion order, so
it is embedded as an ordered list of pairs, with absence embedded as []. -/
structure AddBundleInput where
  bundleId : String
  selectedComponents : Option (List BundleSelection) := none
  quantity : Option Int := none
  cartId : Option String := none
  customAttributes : List Attr := []
  deriving DecidableEq

/-- Cart line as built by buildBundleCartLines and consumed by the grouping
functions, which only read the attributes. -/
structure CartLine where
  merchandiseId : String
  quantity : Int
  attributes : List Attr
  deriving DecidableEq

-- Cart line attribute keys (constants.ts BUNDLE_ATTRIBUTES).
namespace BUNDLE_ATTRIBUTES

def bundleParent : String := "_bundle_parent"

def bundleComponentOf : String := "_bundle_component_of"

def bundleProductId : String := "_bundle_product_id"

def componentIndex : String := "_bundle_component_index"

def componentProductId : String := "_bundle_component_product_id"

def totalComponents : String := "_bundle_total_components"

end BUNDLE_ATTRIBUTES

/-- Low stock threshold (checkInventory.ts LOW_STOCK_THRESHOLD). -/
def LOW_STOCK_THRESHOLD : Int := 5

/-! ### Cart mutation building (buildCartMutation.ts) -/

/-- buildBundleAttributes from buildCartMutation.ts. -/
def buildBundleAttributes (bundleId : String) (componentIndex : Nat)
    (totalComponents : Nat) (componentProductId : String) : List Attr :=
  [ ⟨BUNDLE_ATTRIBUTES.bundleParent, "true"⟩,
    ⟨BUNDLE_ATTRIBUTES.bundleProductId, bundleId⟩,
    ⟨BUNDLE_ATTRIBUTES.componentIndex, toString componentIndex⟩,
    ⟨BUNDLE_ATTRIBUTES.totalComponents, toString totalComponents⟩,
    ⟨BUNDLE_ATTRIBUTES.componentProductId, componentProductId⟩ ]

/-- Default component resolution for one component on the fixed-bundle path:
the source uses c.defaultVariantId ?? c.variants[0]!.id, which throws when
defaultVariantId is absent and variants is empty; that failure is none. -/
def defaultSelection (c : BundleComponent) : Option BundleSelection :=
  match c.defaultVariantId with
  | some vid => some ⟨c.productId, vid, c.quantity⟩
  | none =>
    match c.variants with
    | v :: _ => some ⟨c.productId, v.id, c.quantity⟩
    | [] => none

/-- Default component resolution over the whole component list. -/
def defaultSelections : List BundleComponent → Option (List BundleSelection)
  | [] => some []
  | c :: cs =>
    match defaultSelection c, defaultSelections cs with
    | some s, some rest => some (s :: rest)
    | _, _ => none

/-- Shared componentsToAdd / variantsToCheck resolution used by
buildBundleCartLines and checkInventoryFromStorefrontApi: the customer
selections when present and non-empty, else the definition defaults. -/
def resolveComponents (d : BundleDefinition)
    (sel : Option (List BundleSelection)) : Option (List BundleSelection) :=
  match sel with
  | some (s :: rest) => some (s :: rest)
  | _ => defaultSelections d.components

/-- One cart line of buildBundleCartLines: bundle attributes first, then any
caller-supplied custom attributes appended. -/
def mkBundleLine (bundleId : String) (custom : List Attr) (q : Int)
    (total : Nat) (idx : Nat) (c : BundleSelection) : CartLine :=
  { merchandiseId := c.variantId,
    quantity := c.quantity * q,
    attributes := buildBundleAttributes bundleId idx total c.productId ++ custom }

/-- The forEach loop of buildBundleCartLines, carrying the running index. -/
def buildLinesFrom (bundleId : String) (custom : List Attr) (q : Int)
    (total : Nat) : Nat → List BundleSelection → List CartLine
  | _, [] => []
  | idx, c :: cs =>
    mkBundleLine bundleId custom q total idx c ::
      buildLinesFrom bundleId custom q total (idx + 1) cs

/-- buildBundleCartLines from buildCartMutation.ts.  Returns none when the
fixed-bundle default path throws on a component with no default variant and
an empty variant list. -/
def buildBundleCartLines (d : BundleDefinition) (input : AddBundleInput) :
    Option (List CartLine) :=
  (resolveComponents d input.selectedComponents).map (fun comps =>
    buildLinesFrom d.id input.customAttributes (input.quantity.getD 1)
      comps.length 0 comps)

/-- isBundleLine from buildCartMutation.ts. -/
def isBundleLine (line : CartLine) : Bool :=
  line.attributes.any (fun attr =>
    attr.key == BUNDLE_ATTRIBUTES.bundleParent && attr.value == "true")

/-- Partial record of bundle membership attributes
(types.ts BundleLineAttributes). -/
structure BundleLineAttributes where
  bundleParent : Option String := none
  bundleProductId : Option String := none
  bundleComponentIndex : Option String := none
  deriving DecidableEq

/-- Loop body of getBundleInfoFromLine: later attributes overwrite earlier
ones with the same key. -/
def bundleInfoStep (attrs : BundleLineAttributes) (attr : Attr) :
    BundleLineAttributes :=
  if attr.key == BUNDLE_ATTRIBUTES.bundleParent then
    { attrs with bundleParent := some attr.value }
  else if attr.key == BUNDLE_ATTRIBUTES.bundleProductId then
    { attrs with bundleProductId := some attr.value }
  else if attr.key == BUNDLE_ATTRIBUTES.componentIndex then
    { attrs with bundleComponentIndex := some attr.value }
  else attrs

/-- getBundleInfoFromLine from buildCartMutation.ts. -/
def getBundleInfoFromLine (line : CartLine) : BundleLineAttributes :=
  line.attributes.foldl bundleInfoStep {}

/-- One group produced by groupCartLinesByBundle. -/
structure BundleGroup where
  bundleProductId : String
  lines : List CartLine
  deriving DecidableEq

/-- Insertion into the JavaScript Map of groupCartLinesByBundle: a Map
iterates in insertion order, and lines are pushed to the end of the group. -/
def insertGroupLine : List (String × BundleGroup) → String → CartLine →
    List (String × BundleGroup)
  | [], bid, line => [(bid, ⟨bid, [line]⟩)]
  | (k, g) :: rest, bid, line =>
    if k == bid then (k, ⟨g.bundleProductId, g.lines ++ [line]⟩) :: rest
    else (k, g) :: insertGroupLine rest bid line

/-- Loop body of groupCartLinesByBundle.  A missing bundle id attribute skips
the line, and so does an empty-string id: the source tests the id with a
JavaScript truthiness check, and the empty string is falsy. -/
def groupStep (groups : List (String × BundleGroup)) (line : CartLine) :
    List (String × BundleGroup) :=
  if isBundleLine line then
    match (getBundleInfoFromLine line).bundleProductId with
    | none => groups
    | some bid => if bid == "" then groups else insertGroupLine groups bid line
  else groups

/-- groupCartLinesByBundle from buildCartMutation.ts, with the Map embedded
as an insertion-ordered association list. -/
def groupCartLinesByBundle (lines : List CartLine) :
    List (String × BundleGroup) :=
  lines.foldl groupStep []

/-- First attribute value for a key, mirroring line.attributes.find(...) as
used by addBundleToCart and the test suite to read a line attribute. -/
def findAttrValue (line : CartLine) (key : String) : Option String :=
  (line.attributes.find? (fun a => a.key == key)).map (fun a => a.value)

/-! ### Selection validation (utils/validation.ts) -/

/-- JavaScript truthiness of an optional number: undefined and 0 are falsy,
every other number is truthy. -/
def numTruthy (o : Option Int) : Bool :=
  match o with
  | some n => n != 0
  | none => false

/-- Result record of validateBundleSelection. -/
structure ValidationResult where
  valid : Bool
  error : Option String := none
  deriving DecidableEq

/-- Total selected quantity, the reduce over selections in
validateBundleSelection. -/
def totalSelections (selections : List BundleSelection) : Int :=
  selections.foldl (fun sum s => sum + s.quantity) 0

/-- Per-selection check from the for-loop of validateBundleSelection:
returns the error produced for this selection, or none when it passes.
Quantity bounds are checked only when the component allows quantity
selection, and a zero bound is skipped by JavaScript truthiness. -/
def selectionError (d : BundleDefinition) (s : BundleSelection) :
    Option String :=
  match d.components.find? (fun c => c.productId == s.productId) with
  | none => some ("Invalid product selection: " ++ s.productId)
  | some component =>
    match component.variants.find? (fun v => v.id == s.variantId) with
    | none => some ("Invalid variant selection for " ++ component.productTitle)
    | some _ =>
      if component.allowQuantitySelection.getD false then
        if numTruthy component.minQuantity &&
            s.quantity < component.minQuantity.getD 0 then
          some ("Minimum quantity for " ++ component.productTitle ++ " is " ++
            toString (component.minQuantity.getD 0))
        else if numTruthy component.maxQuantity &&
            s.quantity > component.maxQuantity.getD 0 then
          some ("Maximum quantity for " ++ component.productTitle ++ " is " ++
            toString (component.maxQuantity.getD 0))
        else none
      else none

/-- The for-loop of validateBundleSelection: returns on the first failing
selection. -/
def checkSelections (d : BundleDefinition) :
    List BundleSelection → ValidationResult
  | [] => ⟨true, none⟩
  | s :: rest =>
    match selectionError d s with
    | some e => ⟨false, some e⟩
    | none => checkSelections d rest

/-- validateBundleSelection from utils/validation.ts. -/
def validateBundleSelection (d : BundleDefinition)
    (selections : List BundleSelection) : ValidationResult :=
  if d.bundleType == .fixed then ⟨true, none⟩
  else
    let total := totalSelections selections
    if numTruthy d.minSelections && total < d.minSelections.getD 0 then
      ⟨false, some ("Please select at least " ++
        toString (d.minSelections.getD 0) ++ " items.")⟩
    else if numTruthy d.maxSelections && total > d.maxSelections.getD 0 then
      ⟨false, some ("You can select at most " ++
        toString (d.maxSelections.getD 0) ++ " items.")⟩
    else checkSelections d selections

/-! ### Inventory checking (checkInventory.ts) -/

/-- getAvailabilityStatus from checkInventory.ts. -/
def getAvailabilityStatus (availableForSale : Bool)
    (quantityAvailable : Option Int) : AvailabilityStatus :=
  if !availableForSale then .out_of_stock
  else
    match quantityAvailable with
    | none => .available
    | some q =>
      if q = 0 then .out_of_stock
      else if q ≤ LOW_STOCK_THRESHOLD then .limited
      else .available

/-- Per-component inventory snapshot (types.ts ComponentInventory). -/
structure ComponentInventory where
  productId : String
  variantId : String
  status : AvailabilityStatus
  quantityAvailable : Option Int := none
  maxAddable : Option Int := none
  deriving DecidableEq

/-- Aggregate bundle inventory (types.ts BundleInventory).  The cachedAt
timestamp is omitted: it is an impure clock read. -/
structure BundleInventory where
  available : Bool
  status : AvailabilityStatus
  maxQuantity : Int
  limitingComponent : Option ComponentInventory := none
  components : List ComponentInventory
  deriving DecidableEq

/-- One node of the variant-inventory GraphQL response consumed by
checkInventoryFromStorefrontApi. -/
structure InvNode where
  id : String
  availableForSale : Bool
  quantityAvailable : Option Int := none
  deriving DecidableEq

/-- Per-component result construction inside the loop of
checkInventoryFromStorefrontApi: a variant missing from the response yields
availableForSale = false and an unknown quantity.  Math.floor of the
JavaScript real division by a positive count is integer floor division. -/
def componentInventoryFor (nodes : List InvNode) (check : BundleSelection) :
    ComponentInventory :=
  let variant := nodes.find? (fun n => n.id == check.variantId)
  let availableForSale := (variant.map (fun n => n.availableForSale)).getD false
  let quantityAvailable := variant.bind (fun n => n.quantityAvailable)
  let status := getAvailabilityStatus availableForSale quantityAvailable
  let maxAddable :=
    match quantityAvailable with
    | some qa => if check.quantity > 0 then some (Int.fdiv qa check.quantity) else none
    | none => none
  { productId := check.productId,
    variantId := check.variantId,
    status := status,
    quantityAvailable := quantityAvailable,
    maxAddable := maxAddable }

/-- Running state of the inventory loop: components so far, running minimum
maxAddable (none embeds the initial Infinity), and the current limiting
component. -/
structure InvState where
  components : List ComponentInventory
  minMax : Option Int := none
  limiting : Option ComponentInventory := none
  deriving DecidableEq

/-- Loop body of checkInventoryFromStorefrontApi: push the component and
update the running minimum with a strict comparison, so the first component
reaching the minimum is kept. -/
def invStep (nodes : List InvNode) (st : InvState) (check : BundleSelection) :
    InvState :=
  let ci := componentInventoryFor nodes check
  match ci.maxAddable with
  | some m =>
    match st.minMax with
    | none => ⟨st.components ++ [ci], some m, some ci⟩
    | some cur =>
      if m < cur then ⟨st.components ++ [ci], some m, some ci⟩
      else ⟨st.components ++ [ci], st.minMax, st.limiting⟩
  | none => ⟨st.components ++ [ci], st.minMax, st.limiting⟩

/-- Pure core of checkInventoryFromStorefrontApi, taking the list of checks
(already resolved from selections or defaults) and the inventory response
nodes.  The 99 sentinel replaces the initial Infinity when no component has
a defined bound. -/
def checkInventoryCore (nodes : List InvNode)
    (checks : List BundleSelection) : BundleInventory :=
  let st := checks.foldl (invStep nodes) ⟨[], none, none⟩
  let hasOutOfStock := st.components.any (fun c => c.status == .out_of_stock)
  let hasLimited := st.components.any (fun c => c.status == .limited)
  let overallStatus : AvailabilityStatus :=
    if hasOutOfStock then .out_of_stock
    else if hasLimited then .limited
    else .available
  { available := !hasOutOfStock,
    status := overallStatus,
    maxQuantity := st.minMax.getD 99,
    limitingComponent :=
      if hasOutOfStock || hasLimited then st.limiting else none,
    components := st.components }

/-- checkInventoryFromStorefrontApi from checkInventory.ts, restricted to its
pure computation: component resolution (shared with the cart builder) plus
aggregation over the fetched nodes.  none embeds the throw on a fixed-path
component with no default variant and no variants. -/
def checkInventoryFromStorefrontApi (d : BundleDefinition)
    (sel : Option (List BundleSelection)) (nodes : List InvNode) :
    Option BundleInventory :=
  (resolveComponents d sel).map (checkInventoryCore nodes)

/-! ### Price calculation (sdk/calculatePrice.ts) -/

/-- Rendering of a signed number of cents with two fraction digits. -/
def renderCents (n : Int) : String :=
  let m : Nat := n.natAbs
  let intPart : Nat := m / 100
  let frac : Nat := m % 100
  (if n < 0 then "-" else "") ++ toString intPart ++ "." ++
    (if frac < 10 then "0" ++ toString frac else toString frac)

/-- Number.prototype.toFixed(2) on an exact value: the nearest multiple of
1/100, ties resolved to the larger candidate, rendered with two fraction
digits. -/
def toFixed2 (q : ℚ) : String :=
  renderCents ⌊q * 100 + 1 / 2⌋

/-- Per-component entry of the price breakdown
(types.ts BundlePriceResult.componentPrices). -/
structure ComponentPrice where
  productId : String
  variantId : String
  quantity : Int
  unitPrice : Money
  lineTotal : FormattedMoney
  deriving DecidableEq

/-- Price calculation result (types.ts BundlePriceResult). -/
structure BundlePriceResult where
  originalPrice : FormattedMoney
  bundlePrice : FormattedMoney
  savings : FormattedMoney
  savingsPercentage : ℚ
  componentPrices : List ComponentPrice
  deriving DecidableEq

/-- Selection branch of the component-price loop in
calculatePriceFromDefinition: a selection whose product matches no component,
or whose variant matches no variant of the matched component, is skipped
silently.  Returns the breakdown entries and the accumulated original price
total. -/
def selectionPriceLines (d : BundleDefinition) (cc : String) :
    List BundleSelection → List ComponentPrice × ℚ
  | [] => ([], 0)
  | s :: rest =>
    let tail := selectionPriceLines d cc rest
    match d.components.find? (fun c => c.productId == s.productId) with
    | none => tail
    | some component =>
      match component.variants.find? (fun v => v.id == s.variantId) with
      | none => tail
      | some variant =>
        let unitPrice := variant.price.amount
        let lineTotal := unitPrice * s.quantity
        (⟨s.productId, s.variantId, s.quantity, variant.price,
           ⟨toFixed2 lineTotal, cc⟩⟩ :: tail.1,
         lineTotal + tail.2)

/-- Default branch of the component-price loop in
calculatePriceFromDefinition: the variant matching defaultVariantId, else the
first variant, else the component is skipped. -/
def defaultPriceLines (cc : String) :
    List BundleComponent → List ComponentPrice × ℚ
  | [] => ([], 0)
  | component :: rest =>
    let tail := defaultPriceLines cc rest
    let variantOpt :=
      match component.variants.find?
          (fun v => some v.id == component.defaultVariantId) with
      | some v => some v
      | none => component.variants.head?
    match variantOpt with
    | none => tail
    | some variant =>
      let unitPrice := variant.price.amount
      let lineTotal := unitPrice * component.quantity
      (⟨component.productId, variant.id, component.quantity, variant.price,
         ⟨toFixed2 lineTotal, cc⟩⟩ :: tail.1,
       lineTotal + tail.2)

/-- Branch choice of calculatePriceFromDefinition: customer selections when
present and non-empty, else the definition defaults. -/
def priceLinesAndTotal (d : BundleDefinition) (cc : String)
    (sel : Option (List BundleSelection)) : List ComponentPrice × ℚ :=
  match sel with
  | some (s :: rest) => selectionPriceLines d cc (s :: rest)
  | _ => defaultPriceLines cc d.components

/-- Original price total accumulated by calculatePriceFromDefinition. -/
def originalTotal (d : BundleDefinition) (sel : Option (List BundleSelection)) : ℚ :=
  (priceLinesAndTotal d (d.pricing.currencyCode.getD "USD") sel).2

/-- The discount switch of calculatePriceFromDefinition, before the floor
at zero. -/
def bundlePriceAmountRaw (pricing : BundlePricing) (originalPriceTotal : ℚ) : ℚ :=
  match pricing.discountType with
  | .percentage => originalPriceTotal * (1 - pricing.discountValue.getD 0 / 100)
  | .fixed_amount => originalPriceTotal - pricing.discountValue.getD 0
  | .fixed_price => pricing.discountValue.getD originalPriceTotal
  | .custom =>
    match pricing.bundlePrice with
    | some bp => bp.amount
    | none => originalPriceTotal

/-- Bundle price after the floor at zero. -/
def bundlePriceAmount (d : BundleDefinition)
    (sel : Option (List BundleSelection)) : ℚ :=
  max 0 (bundlePriceAmountRaw d.pricing (originalTotal d sel))

/-- Savings amount computed by calculatePriceFromDefinition. -/
def savingsAmount (d : BundleDefinition)
    (sel : Option (List BundleSelection)) : ℚ :=
  originalTotal d sel - bundlePriceAmount d sel

/-- Savings percentage computed by calculatePriceFromDefinition, guarded
against division by zero. -/
def savingsPercentageOf (d : BundleDefinition)
    (sel : Option (List BundleSelection)) : ℚ :=
  if originalTotal d sel > 0 then
    savingsAmount d sel / originalTotal d sel * 100
  else 0

/-- calculatePriceFromDefinition from sdk/calculatePrice.ts. -/
def calculatePriceFromDefinition (d : BundleDefinition)
    (sel : Option (List BundleSelection)) : BundlePriceResult :=
  let cc := d.pricing.currencyCode.getD "USD"
  { originalPrice := ⟨toFixed2 (originalTotal d sel), cc⟩,
    bundlePrice := ⟨toFixed2 (bundlePriceAmount d sel), cc⟩,
    savings := ⟨toFixed2 (savingsAmount d sel), cc⟩,
    savingsPercentage := savingsPercentageOf d sel,
    componentPrices := (priceLinesAndTotal d cc sel).1 }

/-! ### Bundle resolution (sdk/resolveBundle.ts) -/

/-- One bundle component node of the storefront product payload consumed by
parseStorefrontResponse (product, variant snapshot, quantity). -/
structure StorefrontBundleComponent where
  productId : String
  productTitle : String
  productHandle : String
  variantId : String
  variantTitle : String
  variantSku : Option String := none
  variantAvailableForSale : Bool
  variantQuantityAvailable : Option Int := none
  variantPrice : Money
  variantCompareAtPrice : Option Money := none
  quantity : Int
  deriving DecidableEq

/-- One product variant of the storefront payload.  An absent
bundleComponents connection is embedded as the empty list. -/
structure StorefrontVariant where
  id : String
  title : String
  price : Money
  compareAtPrice : Option Money := none
  availableForSale : Bool
  bundleComponents : List StorefrontBundleComponent := []
  deriving DecidableEq

/-- The storefront product payload consumed by parseStorefrontResponse. -/
structure StorefrontProduct where
  id : String
  title : String
  handle : String
  availableForSale : Bool
  variants : List StorefrontVariant
  deriving DecidableEq

/-- The bundle variant: the first product variant whose bundle component list
is non-empty. -/
def findBundleVariant (p : StorefrontProduct) : Option StorefrontVariant :=
  p.variants.find? (fun v => !v.bundleComponents.isEmpty)

/-- Normalization of one storefront bundle component into a BundleComponent
with a single snapshot variant, as in parseStorefrontResponse. -/
def parsedComponent (bc : StorefrontBundleComponent) : BundleComponent :=
  { productId := bc.productId,
    productTitle := bc.productTitle,
    productHandle := bc.productHandle,
    variants := [{ id := bc.variantId,
                   title := bc.variantTitle,
                   price := bc.variantPrice,
                   compareAtPrice := bc.variantCompareAtPrice,
                   sku := bc.variantSku,
                   availableForSale := bc.variantAvailableForSale,
                   quantityAvailable := bc.variantQuantityAvailable }],
    defaultVariantId := some bc.variantId,
    quantity := bc.quantity,
    required := some true }

/-- Components built by parseStorefrontResponse for the bundle variant. -/
def parsedComponents (v : StorefrontVariant) : List BundleComponent :=
  v.bundleComponents.map parsedComponent

/-- Original price computed by parseStorefrontResponse: the reduce over
components of first-variant unit price times component quantity.  Every
component built above carries exactly one variant, so the empty-variants
branch is unreachable. -/
def parsedOriginalPrice (v : StorefrontVariant) : ℚ :=
  (parsedComponents v).foldl
    (fun sum comp =>
      sum + (match comp.variants with
             | w :: _ => w.price.amount
             | [] => 0) * comp.quantity) 0

/-- Savings computed by parseStorefrontResponse. -/
def parsedSavings (v : StorefrontVariant) : ℚ :=
  parsedOriginalPrice v - v.price.amount

/-- Savings percentage computed by parseStorefrontResponse, guarded against
division by zero. -/
def parsedSavingsPercentage (v : StorefrontVariant) : ℚ :=
  if parsedOriginalPrice v > 0 then
    parsedSavings v / parsedOriginalPrice v * 100
  else 0

/-- Math.round: round half toward positive infinity. -/
def jsRound (q : ℚ) : ℤ := ⌊q + 1 / 2⌋

/-- Discount type inference of parseStorefrontResponse: percentage exactly
when the savings percentage equals its own rounding. -/
def parsedDiscountType (v : StorefrontVariant) : BundleDiscountType :=
  if parsedSavingsPercentage v = (jsRound (parsedSavingsPercentage v) : ℚ) then
    .percentage
  else .fixed_amount

/-- parseStorefrontResponse from sdk/resolveBundle.ts: none embeds the null
return for a product with no bundle variant. -/
def parseStorefrontResponse (p : StorefrontProduct) :
    Option BundleDefinition :=
  (findBundleVariant p).map (fun bundleVariant =>
    let currencyCode := bundleVariant.price.currencyCode
    { id := p.id,
      title := p.title,
      handle := p.handle,
      bundleType := .fixed,
      components := parsedComponents bundleVariant,
      pricing :=
        { discountType := parsedDiscountType bundleVariant,
          discountValue := some
            (if parsedDiscountType bundleVariant = .percentage then
              parsedSavingsPercentage bundleVariant
            else parsedSavings bundleVariant),
          currencyCode := some currencyCode,
          originalPrice := some
            ⟨toFixed2 (parsedOriginalPrice bundleVariant), currencyCode⟩,
          bundlePrice := some bundleVariant.price,
          savings := some
            ⟨toFixed2 (parsedSavings bundleVariant), currencyCode⟩,
          savingsPercentage := some (parsedSavingsPercentage bundleVariant) },
      availableForSale := p.availableForSale,
      variantId := some bundleVariant.id })

/-! ### Helpers for the verification -/

/-- Numeric value of a decimal digit character. -/
def digitVal (c : Char) : Nat := c.toNat - 48

/-- Decimal evaluation of a character list, used to invert Nat.repr. -/
def parseFold (l : List Char) (v : Nat) : Nat :=
  l.foldl (fun a c => a * 10 + digitVal c) v

/-- Decimal evaluation of a string. -/
def parseNat (s : String) : Nat := parseFold s.data 0

/-- A selection the price loop skips: its product matches no component of
the definition, or its variant matches no variant of the matched component,
exactly mirroring the two continue branches of the loop. -/
def selectionSkipped (d : BundleDefinition) (s : BundleSelection) : Bool :=
  match d.components.find? (fun c => c.productId == s.productId) with
  | none => true
  | some c => (c.variants.find? (fun v => v.id == s.variantId)).isNone

/-- A selection entry that references an existing component of the
definition (the one the lookup resolves), one of the variants of that
component, and respects the declared min and max quantity bounds of that
component. -/
def selectionOk (d : BundleDefinition) (s : BundleSelection) : Prop :=
  ∃ c, d.components.find? (fun x => x.productId == s.productId) = some c ∧
    (∃ v ∈ c.variants, v.id = s.variantId) ∧
    (∀ q, c.minQuantity = some q → q ≤ s.quantity) ∧
    (∀ q, c.maxQuantity = some q → s.quantity ≤ q)

/-! ### Concrete fixtures, mirroring the repository test data -/

/-- Variant v1 of the test fixture bundle. -/
def sampleVariant1 : BundleComponentVariant :=
  { id := "v1", title := "Default", price := ⟨10, "USD"⟩,
    availableForSale := true }

/-- Variant v2 of the test fixture bundle. -/
def sampleVariant2 : BundleComponentVariant :=
  { id := "v2", title := "Default", price := ⟨15, "USD"⟩,
    availableForSale := true }

/-- Component p1 of the test fixture bundle. -/
def sampleComponent1 : BundleComponent :=
  { productId := "p1", productTitle := "Product 1",
    productHandle := "product-1", variants := [sampleVariant1],
    defaultVariantId := some "v1", quantity := 2 }

/-- Component p2 of the test fixture bundle. -/
def sampleComponent2 : BundleComponent :=
  { productId := "p2", productTitle := "Product 2",
    productHandle := "product-2", variants := [sampleVariant2],
    defaultVariantId := some "v2", quantity := 1 }

/-- The fixed test fixture bundle from the repository test suite. -/
def sampleFixedBundle : BundleDefinition :=
  { id := "gid://shopify/Product/100", title := "Test Bundle",
    handle := "test-bundle", bundleType := .fixed,
    components := [sampleComponent1, sampleComponent2],
    pricing := { discountType := .percentage, discountValue := some 10 },
    availableForSale := true }

/-- The mix-and-match test fixture bundle from the repository test suite. -/
def sampleMixBundle : BundleDefinition :=
  { id := "gid://shopify/Product/2", title := "Mix Bundle", handle := "mix",
    bundleType := .mix_and_match, minSelections := some 2,
    maxSelections := some 4,
    components :=
      [{ sampleComponent1 with defaultVariantId := none, quantity := 1 },
       { sampleComponent2 with defaultVariantId := none, quantity := 1 }],
    pricing := { discountType := .percentage, discountValue := some 10 },
    availableForSale := true }

/-- A bundle whose id is the empty string: a legal BundleDefinition value on
which the grouping round trip fails. -/
def emptyIdBundle : BundleDefinition :=
  { sampleFixedBundle with id := "" }

/-- The mix-and-match fixture with both selection bounds set to zero: the
zero bounds are falsy in JavaScript, so the code skips both total checks. -/
def zeroBoundsMixBundle : BundleDefinition :=
  { sampleMixBundle with minSelections := some 0, maxSelections := some 0 }

/-- The cart lines built for the empty-id bundle. -/
def emptyIdLines : List CartLine :=
  (buildBundleCartLines emptyIdBundle { bundleId := "" }).getD []

/-- A bundle priced as fixed_price with a negative discount value. -/
def negativeFixedPriceBundle : BundleDefinition :=
  { sampleFixedBundle with
    pricing := { discountType := .fixed_price, discountValue := some (-5) } }

/-- A bundle priced as fixed_price with a nonnegative discount value. -/
def thirtyFixedPriceBundle : BundleDefinition :=
  { sampleFixedBundle with
    pricing := { discountType := .fixed_price, discountValue := some 30 } }

/-- A definition used as a placeholder default when extracting from Option. -/
def emptyBundleDefinition : BundleDefinition :=
  { id := "", title := "", handle := "", bundleType := .fixed,
    components := [], pricing := { discountType := .custom },
    availableForSale := false }

/-- Storefront payload fixture: one bundle variant priced 15 holding one
component, the component variant priced 10 with quantity 2, so the original
price is 20, the savings 5 and the savings percentage the integer 25. -/
def sampleStorefrontProduct : StorefrontProduct :=
  { id := "gid://shopify/Product/7", title := "SF Bundle", handle := "sf",
    availableForSale := true,
    variants :=
      [{ id := "bv", title := "Bundle Variant", price := ⟨15, "USD"⟩,
         availableForSale := true,
         bundleComponents :=
           [{ productId := "p1", productTitle := "P1", productHandle := "p-1",
              variantId := "cv1", variantTitle := "CV1",
              variantAvailableForSale := true, variantPrice := ⟨10, "USD"⟩,
              quantity := 2 }] }] }

/-- The definition parsed from the storefront fixture. -/
def sampleParsedBundle : BundleDefinition :=
  (parseStorefrontResponse sampleStorefrontProduct).getD emptyBundleDefinition

/-- The default resolved components of the fixed fixture bundle. -/
def sampleResolved : List BundleSelection :=
  [⟨"p1", "v1", 2⟩, ⟨"p2", "v2", 1⟩]

/-- The cart lines built for the fixed fixture bundle with no selections. -/
def sampleLines : List CartLine :=
  (buildBundleCartLines sampleFixedBundle
    { bundleId := "gid://shopify/Product/100" }).getD []

/-! ## Supporting lemmas -/

theorem digitVal_digitChar (k : Nat) (h : k < 10) :
    digitVal (Nat.digitChar k) = k := by
  interval_cases k <;> rfl

theorem parseFold_cons (c : Char) (l : List Char) (v : Nat) :
    parseFold (c :: l) v = parseFold l (v * 10 + digitVal c) := rfl

theorem parseFold_toDigitsCore (f : Nat) :
    ∀ (n : Nat) (acc : List Char), n < f →
      parseFold (Nat.toDigitsCore 10 f n acc) 0 = parseFold acc n := by
  induction f with
  | zero => intro n acc h; exact absurd h (Nat.not_lt_zero n)
  | succ f ih =>
    intro n acc h
    by_cases h0 : n / 10 = 0
    · have hn : n < 10 := by omega
      have hmod : n % 10 = n := by omega
      simp only [Nat.toDigitsCore, h0, if_true, parseFold_cons]
      rw [digitVal_digitChar (n % 10) (by omega), hmod]
      congr 1
      omega
    · have hlt : n / 10 < f := by omega
      simp only [Nat.toDigitsCore, h0, if_false]
      rw [ih (n / 10) _ hlt, parseFold_cons,
        digitVal_digitChar (n % 10) (by omega)]
      congr 1
      omega

theorem toFixed2_zero : toFixed2 0 = "0.00" := by
  have h : ⌊(0 : ℚ) * 100 + 1 / 2⌋ = 0 := by
    rw [Int.floor_eq_zero_iff]
    constructor <;> norm_num
  rw [toFixed2, h]
  decide

theorem parseNat_toString (n : Nat) : parseNat (toString n) = n := by
  have h : parseFold (Nat.toDigitsCore 10 (n + 1) n []) 0 = parseFold [] n :=
    parseFold_toDigitsCore (n + 1) n [] (Nat.lt_succ_self n)
  exact h

theorem toString_nat_injective {m n : Nat} (h : toString m = toString n) :
    m = n := by
  have h2 := congrArg parseNat h
  rwa [parseNat_toString, parseNat_toString] at h2

/-! ## C9: isBundleLine tests for the exact attribute value "true" -/

/-- C9: isBundleLine returns true exactly when the attribute list of the
line contains an entry whose key is the bundle-parent key and whose value is
the exact string true; any other value, or an absent key, yields false. -/
theorem C9_isBundleLine_exact_match (line : CartLine) :
    isBundleLine line = true ↔
      ∃ a ∈ line.attributes,
        a.key = BUNDLE_ATTRIBUTES.bundleParent ∧ a.value = "true" := by
  simp [isBundleLine, List.any_eq_true, Bool.and_eq_true, beq_iff_eq]

/-! ## C8: fixed bundles always validate -/

/-- C8: for every definition of fixed bundle type and every selection list,
validateBundleSelection reports valid. -/
theorem C8_fixed_always_valid (d : BundleDefinition)
    (S : List BundleSelection) (h : d.bundleType = .fixed) :
    (validateBundleSelection d S).valid = true := by
  simp [validateBundleSelection, h]

/-- Witness for C8 at the fixed fixture bundle. -/
theorem C8_witness :
    (validateBundleSelection sampleFixedBundle []).valid = true :=
  C8_fixed_always_valid sampleFixedBundle [] rfl

/-! ## C10: invalid selections are skipped silently by the price loop -/

theorem selectionPriceLines_skip_head (d : BundleDefinition) (cc : String)
    (post : List BundleSelection) (s : BundleSelection)
    (hs : selectionSkipped d s = true) :
    selectionPriceLines d cc (s :: post) = selectionPriceLines d cc post := by
  cases hfind : d.components.find? (fun c => c.productId == s.productId) with
  | none => simp only [selectionPriceLines, hfind]
  | some c =>
    cases hvfind : c.variants.find? (fun v => v.id == s.variantId) with
    | none => simp only [selectionPriceLines, hfind, hvfind]
    | some v =>
      simp only [selectionSkipped, hfind, hvfind] at hs
      exact Bool.noConfusion hs

theorem selectionPriceLines_cons_congr (d : BundleDefinition) (cc : String)
    (p : BundleSelection) {l1 l2 : List BundleSelection}
    (h : selectionPriceLines d cc l1 = selectionPriceLines d cc l2) :
    selectionPriceLines d cc (p :: l1) = selectionPriceLines d cc (p :: l2) := by
  cases hfind : d.components.find? (fun c => c.productId == p.productId) with
  | none => simp only [selectionPriceLines, hfind]; exact h
  | some c =>
    cases hvfind : c.variants.find? (fun v => v.id == p.variantId) with
    | none => simp only [selectionPriceLines, hfind, hvfind]; exact h
    | some v => simp only [selectionPriceLines, hfind, hvfind, h]

theorem selectionPriceLines_all_skipped (d : BundleDefinition) (cc : String)
    (S : List BundleSelection)
    (h : ∀ s ∈ S, selectionSkipped d s = true) :
    selectionPriceLines d cc S = ([], 0) := by
  induction S with
  | nil => rfl
  | cons s rest ih =>
    rw [selectionPriceLines_skip_head d cc rest s
      (h s (List.mem_cons_self s rest))]
    exact ih (fun x hx => h x (List.mem_cons_of_mem s hx))

/-- C10: for every definition, a selection whose product or variant matches
nothing in the definition contributes nothing to the price computation (no
error is raised: the function is total on such inputs), and a non-empty
selection list with no valid entry yields an original price of zero,
formatted as the string 0.00, with an empty component breakdown. -/
theorem C10_invalid_selections_skipped (d : BundleDefinition) :
    (∀ cc pre post s, selectionSkipped d s = true →
      selectionPriceLines d cc (pre ++ s :: post) =
        selectionPriceLines d cc (pre ++ post)) ∧
    (∀ S, S ≠ [] → (∀ s ∈ S, selectionSkipped d s = true) →
      (calculatePriceFromDefinition d (some S)).originalPrice.amount =
        "0.00" ∧
      (calculatePriceFromDefinition d (some S)).componentPrices = []) := by
  constructor
  · intro cc pre post s hs
    induction pre with
    | nil =>
      simpa using selectionPriceLines_skip_head d cc post s hs
    | cons p pre ih =>
      simp only [List.cons_append]
      exact selectionPriceLines_cons_congr d cc p ih
  · intro S hne hall
    cases S with
    | nil => exact absurd rfl hne
    | cons s rest =>
      have hz := selectionPriceLines_all_skipped d
        (d.pricing.currencyCode.getD "USD") (s :: rest) hall
      constructor
      · show toFixed2 (originalTotal d (some (s :: rest))) = "0.00"
        rw [show originalTotal d (some (s :: rest)) = 0 by
          simp only [originalTotal, priceLinesAndTotal, hz]]
        exact toFixed2_zero
      · show (priceLinesAndTotal d (d.pricing.currencyCode.getD "USD")
          (some (s :: rest))).1 = []
        simp only [priceLinesAndTotal, hz]

/-- Witness for C10: a selection list naming an unknown product prices to
0.00 on the fixture bundle. -/
theorem C10_witness :
    (calculatePriceFromDefinition sampleFixedBundle
      (some [⟨"p9", "v9", 1⟩])).originalPrice.amount = "0.00" ∧
    (calculatePriceFromDefinition sampleFixedBundle
      (some [⟨"p9", "v9", 1⟩])).componentPrices = [] :=
  (C10_invalid_selections_skipped sampleFixedBundle).2
    [⟨"p9", "v9", 1⟩] (by decide) (by decide)

/-! ## C3: price invariants -/

/-- C3, amended: the computed bundle price is nonnegative, savings is the
original total minus the bundle price, the savings percentage is zero when
the original total is zero, and for fixed_price with a present nonnegative
discount value the bundle price equals that value regardless of component
prices.  (The original claim, without the nonnegative qualifier, fails: a
negative fixed_price discount value is floored to zero.) -/
theorem C3_price_invariants (d : BundleDefinition)
    (sel : Option (List BundleSelection)) :
    0 ≤ bundlePriceAmount d sel ∧
    savingsAmount d sel = originalTotal d sel - bundlePriceAmount d sel ∧
    (calculatePriceFromDefinition d sel).bundlePrice.amount =
      toFixed2 (bundlePriceAmount d sel) ∧
    (originalTotal d sel = 0 →
      (calculatePriceFromDefinition d sel).savingsPercentage = 0) ∧
    (∀ v, d.pricing.discountType = .fixed_price →
      d.pricing.discountValue = some v → 0 ≤ v →
      bundlePriceAmount d sel = v) := by
  refine ⟨le_max_left 0 _, rfl, rfl, ?_, ?_⟩
  · intro h
    simp [calculatePriceFromDefinition, savingsPercentageOf, h]
  · intro v ht hv hnn
    simp only [bundlePriceAmount, bundlePriceAmountRaw, ht, hv,
      Option.getD_some]
    exact max_eq_right hnn

/-- Counterexample to C3 as stated: with discountType fixed_price and
discountValue -5, the computed bundle price is 0, not the discount value. -/
theorem C3_counterexample :
    negativeFixedPriceBundle.pricing.discountType = .fixed_price ∧
    negativeFixedPriceBundle.pricing.discountValue = some (-5) ∧
    bundlePriceAmount negativeFixedPriceBundle none = 0 ∧
    bundlePriceAmount negativeFixedPriceBundle none ≠ -5 := by
  have h : bundlePriceAmount negativeFixedPriceBundle none = max 0 (-5 : ℚ) :=
    rfl
  refine ⟨rfl, rfl, ?_, ?_⟩ <;> rw [h] <;> norm_num

/-- Witness for C3 at a fixed_price bundle with discount value 30. -/
theorem C3_witness :
    bundlePriceAmount thirtyFixedPriceBundle none = 30 :=
  (C3_price_invariants thirtyFixedPriceBundle none).2.2.2.2 30 rfl rfl
    (by norm_num)

/-! ## C7: mix-and-match validation -/

theorem selectionOk_error_none (d : BundleDefinition) (s : BundleSelection)
    (h : selectionOk d s) : selectionError d s = none := by
  obtain ⟨c, hfind, ⟨v0, hv0mem, hv0id⟩, hmin, hmax⟩ := h
  obtain ⟨v, hvfind⟩ :
      ∃ v, c.variants.find? (fun v => v.id == s.variantId) = some v := by
    cases hf : c.variants.find? (fun v => v.id == s.variantId) with
    | none =>
      rw [List.find?_eq_none] at hf
      exact absurd (by simp [hv0id]) (hf v0 hv0mem)
    | some v => exact ⟨v, rfl⟩
  simp only [selectionError, hfind, hvfind]
  cases hallow : c.allowQuantitySelection.getD false with
  | false => simp [hallow]
  | true =>
    have h1 : (numTruthy c.minQuantity &&
        decide (s.quantity < c.minQuantity.getD 0)) = false := by
      cases hmq : c.minQuantity with
      | none => simp [numTruthy]
      | some q =>
        have hq := hmin q hmq
        simp only [numTruthy, Option.getD_some, Bool.and_eq_false_iff]
        right
        simpa using not_lt.mpr hq
    have h2 : (numTruthy c.maxQuantity &&
        decide (s.quantity > c.maxQuantity.getD 0)) = false := by
      cases hMq : c.maxQuantity with
      | none => simp [numTruthy]
      | some q =>
        have hq := hmax q hMq
        simp only [numTruthy, Option.getD_some, Bool.and_eq_false_iff]
        right
        simpa using not_lt.mpr hq
    simp [hallow, h1, h2]

theorem checkSelections_all_ok (d : BundleDefinition)
    (S : List BundleSelection) (h : ∀ s ∈ S, selectionError d s = none) :
    checkSelections d S = ⟨true, none⟩ := by
  induction S with
  | nil => rfl
  | cons s rest ih =>
    have hs := h s (List.mem_cons_self s rest)
    simp only [checkSelections, hs]
    exact ih (fun x hx => h x (List.mem_cons_of_mem s hx))

theorem checkSelections_first_error (d : BundleDefinition)
    (pre : List BundleSelection) :
    ∀ (s : BundleSelection) (post : List BundleSelection) (e : String),
      (∀ p ∈ pre, selectionError d p = none) →
      selectionError d s = some e →
      checkSelections d (pre ++ s :: post) = ⟨false, some e⟩ := by
  induction pre with
  | nil =>
    intro s post e _ hs
    simp only [List.nil_append, checkSelections, hs]
  | cons p pre ih =>
    intro s post e hpre hs
    have hp := hpre p (List.mem_cons_self p pre)
    simp only [List.cons_append, checkSelections, hp]
    exact ih s post e (fun x hx => hpre x (List.mem_cons_of_mem p hx)) hs

/-- C7, amended: for a mix-and-match definition with POSITIVE minSelections
m and maxSelections M with m at most M: a selection list totalling under m
is rejected with the message naming m; one totalling over M is rejected
with the message naming M; one within the bounds whose entries all
reference an existing component and variant and respect the per-component
quantity bounds is accepted; and the error of the first violating entry is
the one returned (fail-fast).  (As stated, for every m and M, the claim
fails: a zero bound is falsy in JavaScript and its total check is skipped,
so with maxSelections = 0 a list whose total exceeds M is accepted.) -/
theorem C7_mix_and_match_validation (d : BundleDefinition) (m M : Int)
    (hmm : d.bundleType = .mix_and_match)
    (hmin : d.minSelections = some m)
    (hmax : d.maxSelections = some M)
    (hm : 0 < m) (hmM : m ≤ M) :
    (∀ S, totalSelections S < m →
      validateBundleSelection d S =
        ⟨false, some ("Please select at least " ++ toString m ++
          " items.")⟩) ∧
    (∀ S, M < totalSelections S →
      validateBundleSelection d S =
        ⟨false, some ("You can select at most " ++ toString M ++
          " items.")⟩) ∧
    (∀ S, m ≤ totalSelections S → totalSelections S ≤ M →
      (∀ s ∈ S, selectionOk d s) →
      validateBundleSelection d S = ⟨true, none⟩) ∧
    (∀ pre s post e, m ≤ totalSelections (pre ++ s :: post) →
      totalSelections (pre ++ s :: post) ≤ M →
      (∀ p ∈ pre, selectionError d p = none) →
      selectionError d s = some e →
      validateBundleSelection d (pre ++ s :: post) = ⟨false, some e⟩) := by
  have hfix : (d.bundleType == BundleType.fixed) = false := by
    rw [hmm]; rfl
  have hmne : (m != 0) = true := by simp; omega
  have hMne : (M != 0) = true := by simp; omega
  refine ⟨?_, ?_, ?_, ?_⟩
  · intro S hS
    simp only [validateBundleSelection, hfix, Bool.false_eq_true, if_false,
      hmin, hmax, numTruthy, Option.getD_some, hmne]
    rw [if_pos (by simp [hS])]
  · intro S hS
    simp only [validateBundleSelection, hfix, Bool.false_eq_true, if_false,
      hmin, hmax, numTruthy, Option.getD_some, hmne, hMne]
    rw [if_neg (by simp; omega), if_pos (by simp [hS])]
  · intro S h1 h2 hok
    simp only [validateBundleSelection, hfix, Bool.false_eq_true, if_false,
      hmin, hmax, numTruthy, Option.getD_some, hmne, hMne]
    rw [if_neg (by simp; omega), if_neg (by simp; omega)]
    exact checkSelections_all_ok d S
      (fun s hs => selectionOk_error_none d s (hok s hs))
  · intro pre s post e h1 h2 hpre hs
    simp only [validateBundleSelection, hfix, Bool.false_eq_true, if_false,
      hmin, hmax, numTruthy, Option.getD_some, hmne, hMne]
    rw [if_neg (by simp; omega), if_neg (by simp; omega)]
    exact checkSelections_first_error d pre s post e hpre hs

/-- Witness for C7: one unit selected on the two-minimum fixture bundle is
rejected naming the minimum. -/
theorem C7_witness :
    validateBundleSelection sampleMixBundle [⟨"p1", "v1", 1⟩] =
      ⟨false, some "Please select at least 2 items."⟩ :=
  (C7_mix_and_match_validation sampleMixBundle 2 4 rfl rfl rfl
    (by norm_num) (by norm_num)).1 [⟨"p1", "v1", 1⟩] (by decide)

/-- Counterexample to C7 as stated: with minSelections = maxSelections = 0
on a mix-and-match bundle, a selection totalling 1 exceeds M = 0 yet is
accepted, because the zero bound is falsy and its check is skipped. -/
theorem C7_counterexample :
    zeroBoundsMixBundle.bundleType = .mix_and_match ∧
    zeroBoundsMixBundle.maxSelections = some 0 ∧
    totalSelections [⟨"p1", "v1", 1⟩] > 0 ∧
    validateBundleSelection zeroBoundsMixBundle [⟨"p1", "v1", 1⟩] =
      ⟨true, none⟩ := by decide

/-! ## C5: availability classification and aggregation -/

theorem invStep_components (nodes : List InvNode) (st : InvState)
    (check : BundleSelection) :
    (invStep nodes st check).components =
      st.components ++ [componentInventoryFor nodes check] := by
  simp only [invStep]
  cases hma : (componentInventoryFor nodes check).maxAddable with
  | none => rfl
  | some m =>
    cases st.minMax with
    | none => rfl
    | some cur => by_cases h : m < cur <;> simp [h]

theorem foldl_invStep_components (nodes : List InvNode) :
    ∀ (checks : List BundleSelection) (st : InvState),
      (checks.foldl (invStep nodes) st).components =
        st.components ++ checks.map (componentInventoryFor nodes) := by
  intro checks
  induction checks with
  | nil => intro st; simp
  | cons c cs ih =>
    intro st
    simp only [List.foldl_cons, List.map_cons]
    rw [ih, invStep_components]
    simp

theorem checkInventoryCore_components (nodes : List InvNode)
    (checks : List BundleSelection) :
    (checkInventoryCore nodes checks).components =
      checks.map (componentInventoryFor nodes) := by
  simp only [checkInventoryCore]
  rw [foldl_invStep_components]
  rfl

/-- C5: per-component status classification (not available-for-sale is out
of stock; unknown quantity is available; quantity zero is out of stock;
quantity at most the 5 threshold is limited; more is available), and the
aggregation over checkInventoryCore: any out-of-stock component makes the
bundle out of stock, else any limited component makes it limited, else it is
available, and the available flag holds exactly when no component is out of
stock. -/
theorem C5_status_classification_and_aggregation (nodes : List InvNode)
    (checks : List BundleSelection) :
    (∀ (afs : Bool) (qa : Option Int),
      (afs = false → getAvailabilityStatus afs qa = .out_of_stock) ∧
      (afs = true → qa = none → getAvailabilityStatus afs qa = .available) ∧
      (afs = true → qa = some 0 →
        getAvailabilityStatus afs qa = .out_of_stock) ∧
      (∀ q, afs = true → qa = some q → q ≠ 0 → q ≤ 5 →
        getAvailabilityStatus afs qa = .limited) ∧
      (∀ q, afs = true → qa = some q → 5 < q →
        getAvailabilityStatus afs qa = .available)) ∧
    (checkInventoryCore nodes checks).components =
      checks.map (componentInventoryFor nodes) ∧
    ((checkInventoryCore nodes checks).status = .out_of_stock ↔
      ∃ c ∈ (checkInventoryCore nodes checks).components,
        c.status = .out_of_stock) ∧
    ((checkInventoryCore nodes checks).status = .limited ↔
      ((∀ c ∈ (checkInventoryCore nodes checks).components,
          c.status ≠ .out_of_stock) ∧
        ∃ c ∈ (checkInventoryCore nodes checks).components,
          c.status = .limited)) ∧
    ((checkInventoryCore nodes checks).available = true ↔
      ∀ c ∈ (checkInventoryCore nodes checks).components,
        c.status ≠ .out_of_stock) := by
  refine ⟨?_, checkInventoryCore_components nodes checks, ?_, ?_, ?_⟩
  · intro afs qa
    refine ⟨?_, ?_, ?_, ?_, ?_⟩
    · intro h; subst h; rfl
    · intro h hq; subst h; subst hq; rfl
    · intro h hq; subst h; subst hq; rfl
    · intro q h hq hne hle
      subst h; subst hq
      simp [getAvailabilityStatus, LOW_STOCK_THRESHOLD, hne, hle]
    · intro q h hq hgt
      subst h; subst hq
      have hne : q ≠ 0 := by omega
      have hnle : ¬ q ≤ LOW_STOCK_THRESHOLD := by
        simp only [LOW_STOCK_THRESHOLD]; omega
      simp [getAvailabilityStatus, hne, hnle]
  · by_cases h1 : ((checks.foldl (invStep nodes) ⟨[], none, none⟩).components.any
        (fun c => c.status == AvailabilityStatus.out_of_stock)) = true
    · simp only [checkInventoryCore, h1, if_true]
      simp only [List.any_eq_true, beq_iff_eq] at h1
      simpa using h1
    · have h1f := eq_false_of_ne_true h1
      simp only [checkInventoryCore, h1f]
      simp only [List.any_eq_true, beq_iff_eq] at h1
      constructor
      · intro hco
        by_cases h2 : ((checks.foldl (invStep nodes)
            ⟨[], none, none⟩).components.any
              (fun c => c.status == AvailabilityStatus.limited)) = true <;>
          simp [h2] at hco
      · intro hex
        exact absurd hex h1
  · by_cases h1 : ((checks.foldl (invStep nodes) ⟨[], none, none⟩).components.any
        (fun c => c.status == AvailabilityStatus.out_of_stock)) = true
    · simp only [checkInventoryCore, h1, if_true]
      simp only [List.any_eq_true, beq_iff_eq] at h1
      constructor
      · intro h; exact absurd h (by simp)
      · intro ⟨hall, _⟩
        obtain ⟨c, hc, hcs⟩ := h1
        exact absurd hcs (hall c hc)
    · have h1f := eq_false_of_ne_true h1
      simp only [List.any_eq_true, beq_iff_eq] at h1
      push_neg at h1
      by_cases h2 : ((checks.foldl (invStep nodes) ⟨[], none, none⟩).components.any
          (fun c => c.status == AvailabilityStatus.limited)) = true
      · simp only [checkInventoryCore, h1f, h2, if_true, if_false,
          Bool.false_eq_true]
        simp only [List.any_eq_true, beq_iff_eq] at h2
        simp only [true_iff]
        exact ⟨h1, h2⟩
      · have h2f := eq_false_of_ne_true h2
        simp only [checkInventoryCore, h1f, h2f, Bool.false_eq_true,
          if_false]
        simp only [List.any_eq_true, beq_iff_eq] at h2
        push_neg at h2
        constructor
        · intro h; exact absurd h (by simp)
        · intro ⟨_, c, hc, hcs⟩
          exact absurd hcs (h2 c hc)
  · by_cases h1 : ((checks.foldl (invStep nodes) ⟨[], none, none⟩).components.any
        (fun c => c.status == AvailabilityStatus.out_of_stock)) = true
    · simp only [checkInventoryCore, h1]
      simp only [List.any_eq_true, beq_iff_eq] at h1
      obtain ⟨c, hc, hcs⟩ := h1
      simp only [Bool.not_true, Bool.false_eq_true, false_iff, not_forall]
      exact ⟨c, hc, by simp [hcs]⟩
    · have h1f := eq_false_of_ne_true h1
      simp only [checkInventoryCore, h1f]
      simp only [List.any_eq_true, beq_iff_eq] at h1
      push_neg at h1
      simpa using h1

/-- Witness for C5: on the limited-stock scenario (quantity 4 against a
required 2) the aggregate is limited, hence not out of stock and still
available. -/
theorem C5_witness :
    (checkInventoryCore [⟨"v1", true, some 4⟩] [⟨"p1", "v1", 2⟩]).available =
      true :=
  (C5_status_classification_and_aggregation [⟨"v1", true, some 4⟩]
    [⟨"p1", "v1", 2⟩]).2.2.2.2.mpr (by decide)

/-! ## C4: maxAddable, maxQuantity and the limiting component -/

theorem invStep_preserves (nodes : List InvNode) (st : InvState)
    (check : BundleSelection)
    (h1 : st.minMax = none ↔
      st.components.filterMap (fun c => c.maxAddable) = [])
    (h2 : ∀ mm, st.minMax = some mm →
      mm ∈ st.components.filterMap (fun c => c.maxAddable) ∧
      ∀ b ∈ st.components.filterMap (fun c => c.maxAddable), mm ≤ b)
    (h3 : st.limiting = none ↔ st.minMax = none)
    (h4 : ∀ c, st.limiting = some c →
      c ∈ st.components ∧ c.maxAddable = st.minMax) :
    ((invStep nodes st check).minMax = none ↔
      (invStep nodes st check).components.filterMap
        (fun c => c.maxAddable) = []) ∧
    (∀ mm, (invStep nodes st check).minMax = some mm →
      mm ∈ (invStep nodes st check).components.filterMap
        (fun c => c.maxAddable) ∧
      ∀ b ∈ (invStep nodes st check).components.filterMap
        (fun c => c.maxAddable), mm ≤ b) ∧
    ((invStep nodes st check).limiting = none ↔
      (invStep nodes st check).minMax = none) ∧
    (∀ c, (invStep nodes st check).limiting = some c →
      c ∈ (invStep nodes st check).components ∧
      c.maxAddable = (invStep nodes st check).minMax) := by
  cases hma : (componentInventoryFor nodes check).maxAddable with
  | none =>
    have hstep : invStep nodes st check =
        ⟨st.components ++ [componentInventoryFor nodes check],
          st.minMax, st.limiting⟩ := by
      simp [invStep, hma]
    rw [hstep]
    have hfm : (st.components ++
        [componentInventoryFor nodes check]).filterMap
          (fun c => c.maxAddable) =
        st.components.filterMap (fun c => c.maxAddable) := by
      simp [List.filterMap_append, List.filterMap_cons, hma]
    refine ⟨by simpa [hfm] using h1, ?_, h3, ?_⟩
    · intro mm hmm
      rw [hfm]
      exact h2 mm hmm
    · intro c hc
      obtain ⟨hmem, hval⟩ := h4 c hc
      exact ⟨List.mem_append_left _ hmem, hval⟩
  | some m =>
    cases hmm : st.minMax with
    | none =>
      have hstep : invStep nodes st check =
          ⟨st.components ++ [componentInventoryFor nodes check],
            some m, some (componentInventoryFor nodes check)⟩ := by
        simp [invStep, hma, hmm]
      have hemp : st.components.filterMap (fun c => c.maxAddable) = [] :=
        h1.mp hmm
      have hfm : (st.components ++
          [componentInventoryFor nodes check]).filterMap
            (fun c => c.maxAddable) = [m] := by
        simp [List.filterMap_append, List.filterMap_cons, hma, hemp]
      rw [hstep]
      refine ⟨by simp [hfm], ?_, by simp, ?_⟩
      · intro mm hmmval
        rw [hfm]
        simp only [Option.some_inj] at hmmval
        subst hmmval
        simp
      · intro c hc
        simp only [Option.some_inj] at hc
        subst hc
        exact ⟨List.mem_append_right _ (by simp), hma⟩
    | some cur =>
      by_cases hlt : m < cur
      · have hstep : invStep nodes st check =
            ⟨st.components ++ [componentInventoryFor nodes check],
              some m, some (componentInventoryFor nodes check)⟩ := by
          simp [invStep, hma, hmm, hlt]
        have hfm : (st.components ++
            [componentInventoryFor nodes check]).filterMap
              (fun c => c.maxAddable) =
            st.components.filterMap (fun c => c.maxAddable) ++ [m] := by
          simp [List.filterMap_append, List.filterMap_cons, hma]
        rw [hstep]
        refine ⟨by simp [hfm], ?_, by simp, ?_⟩
        · intro mm hmmval
          simp only [Option.some_inj] at hmmval
          subst hmmval
          rw [hfm]
          constructor
          · simp
          · intro b hb
            rcases List.mem_append.mp hb with hb | hb
            · have := (h2 cur hmm).2 b hb
              omega
            · simp only [List.mem_singleton] at hb
              omega
        · intro c hc
          simp only [Option.some_inj] at hc
          subst hc
          exact ⟨List.mem_append_right _ (by simp), hma⟩
      · have hstep : invStep nodes st check =
            ⟨st.components ++ [componentInventoryFor nodes check],
              st.minMax, st.limiting⟩ := by
          simp [invStep, hma, hmm, hlt]
        have hfm : (st.components ++
            [componentInventoryFor nodes check]).filterMap
              (fun c => c.maxAddable) =
            st.components.filterMap (fun c => c.maxAddable) ++ [m] := by
          simp [List.filterMap_append, List.filterMap_cons, hma]
        rw [hstep]
        refine ⟨?_, ?_, ?_, ?_⟩
        · rw [hmm, hfm]
          simp
        · intro mm hmmval
          rw [hmm] at hmmval
          simp only [Option.some_inj] at hmmval
          subst hmmval
          obtain ⟨hmem, hbound⟩ := h2 _ hmm
          rw [hfm]
          constructor
          · exact List.mem_append_left _ hmem
          · intro b hb
            rcases List.mem_append.mp hb with hb | hb
            · exact hbound b hb
            · simp only [List.mem_singleton] at hb
              omega
        · rw [hmm]
          rw [hmm] at h3
          exact h3
        · intro c hc
          obtain ⟨hmem, hval⟩ := h4 c hc
          exact ⟨List.mem_append_left _ hmem, hval⟩

theorem foldl_invStep_preserves (nodes : List InvNode) :
    ∀ (checks : List BundleSelection) (st : InvState),
      (st.minMax = none ↔
        st.components.filterMap (fun c => c.maxAddable) = []) →
      (∀ mm, st.minMax = some mm →
        mm ∈ st.components.filterMap (fun c => c.maxAddable) ∧
        ∀ b ∈ st.components.filterMap (fun c => c.maxAddable), mm ≤ b) →
      (st.limiting = none ↔ st.minMax = none) →
      (∀ c, st.limiting = some c →
        c ∈ st.components ∧ c.maxAddable = st.minMax) →
      ((checks.foldl (invStep nodes) st).minMax = none ↔
        (checks.foldl (invStep nodes) st).components.filterMap
          (fun c => c.maxAddable) = []) ∧
      (∀ mm, (checks.foldl (invStep nodes) st).minMax = some mm →
        mm ∈ (checks.foldl (invStep nodes) st).components.filterMap
          (fun c => c.maxAddable) ∧
        ∀ b ∈ (checks.foldl (invStep nodes) st).components.filterMap
          (fun c => c.maxAddable),
          mm ≤ b) ∧
      ((checks.foldl (invStep nodes) st).limiting = none ↔
        (checks.foldl (invStep nodes) st).minMax = none) ∧
      (∀ c, (checks.foldl (invStep nodes) st).limiting = some c →
        c ∈ (checks.foldl (invStep nodes) st).components ∧
        c.maxAddable = (checks.foldl (invStep nodes) st).minMax) := by
  intro checks
  induction checks with
  | nil => intro st h1 h2 h3 h4; exact ⟨h1, h2, h3, h4⟩
  | cons c cs ih =>
    intro st h1 h2 h3 h4
    obtain ⟨g1, g2, g3, g4⟩ := invStep_preserves nodes st c h1 h2 h3 h4
    simpa using ih (invStep nodes st c) g1 g2 g3 g4

/-- C4, amended: per component, maxAddable is the floor of the known
available quantity divided by a positive required quantity and is undefined
otherwise; the aggregate maxQuantity is the minimum defined maxAddable, or
the 99 sentinel when no component defines a bound; and the limiting
component is present exactly when the aggregate status is out_of_stock or
limited AND at least one component defines a bound, in which case it is a
listed component whose bound equals the aggregate minimum.  (The original
claim, which ties presence to the status alone, fails when every component
lacks a numeric bound.) -/
theorem C4_maxAddable_and_limiting (nodes : List InvNode)
    (checks : List BundleSelection) :
    (∀ (check : BundleSelection) (qa : Int),
      ((nodes.find? (fun n => n.id == check.variantId)).bind
          (fun n => n.quantityAvailable)) = some qa →
      0 < check.quantity →
      (componentInventoryFor nodes check).maxAddable =
        some (Int.fdiv qa check.quantity)) ∧
    (∀ check : BundleSelection,
      ((nodes.find? (fun n => n.id == check.variantId)).bind
          (fun n => n.quantityAvailable)) = none →
      (componentInventoryFor nodes check).maxAddable = none) ∧
    (∀ check : BundleSelection, check.quantity ≤ 0 →
      (componentInventoryFor nodes check).maxAddable = none) ∧
    ((checkInventoryCore nodes checks).components.filterMap
        (fun c => c.maxAddable) = [] →
      (checkInventoryCore nodes checks).maxQuantity = 99) ∧
    ((checkInventoryCore nodes checks).components.filterMap
        (fun c => c.maxAddable) ≠ [] →
      (checkInventoryCore nodes checks).maxQuantity ∈
        (checkInventoryCore nodes checks).components.filterMap
          (fun c => c.maxAddable) ∧
      ∀ b ∈ (checkInventoryCore nodes checks).components.filterMap
          (fun c => c.maxAddable),
        (checkInventoryCore nodes checks).maxQuantity ≤ b) ∧
    ((checkInventoryCore nodes checks).limitingComponent ≠ none ↔
      (((checkInventoryCore nodes checks).status = .out_of_stock ∨
          (checkInventoryCore nodes checks).status = .limited) ∧
        (checkInventoryCore nodes checks).components.filterMap
          (fun c => c.maxAddable) ≠ [])) ∧
    (∀ c, (checkInventoryCore nodes checks).limitingComponent = some c →
      c ∈ (checkInventoryCore nodes checks).components ∧
      c.maxAddable = some (checkInventoryCore nodes checks).maxQuantity) := by
  obtain ⟨H1, H2, H3, H4⟩ := foldl_invStep_preserves nodes checks
    ⟨[], none, none⟩ (by simp) (by simp) (by simp) (by simp)
  refine ⟨?_, ?_, ?_, ?_, ?_, ?_, ?_⟩
  · intro check qa hq hpos
    simp [componentInventoryFor, hq, hpos]
  · intro check hq
    simp [componentInventoryFor, hq]
  · intro check hle
    cases hq : ((nodes.find? (fun n => n.id == check.variantId)).bind
        (fun n => n.quantityAvailable)) with
    | none => simp [componentInventoryFor, hq]
    | some qa =>
      have hng : ¬ check.quantity > 0 := by omega
      simp [componentInventoryFor, hq, hng]
  · intro hemp
    simp only [checkInventoryCore] at hemp ⊢
    rw [H1.mpr hemp]
    rfl
  · intro hne
    simp only [checkInventoryCore] at hne ⊢
    cases hmm : (checks.foldl (invStep nodes) ⟨[], none, none⟩).minMax with
    | none => exact absurd (H1.mp hmm) hne
    | some mm =>
      obtain ⟨hmem, hbound⟩ := H2 mm hmm
      simp only [Option.getD_some]
      exact ⟨hmem, hbound⟩
  · simp only [checkInventoryCore]
    by_cases hb : (((checks.foldl (invStep nodes)
          ⟨[], none, none⟩).components.any
            (fun c => c.status == AvailabilityStatus.out_of_stock)) ||
        ((checks.foldl (invStep nodes) ⟨[], none, none⟩).components.any
            (fun c => c.status == AvailabilityStatus.limited))) = true
    · rcases Bool.or_eq_true_iff.mp hb with h1 | h2
      · simp only [h1, Bool.true_or, if_true, hb]
        constructor
        · intro hlim
          refine ⟨Or.inl trivial, ?_⟩
          intro hemp
          exact hlim (H3.mpr (H1.mpr hemp))
        · intro ⟨_, hne⟩
          intro hlim
          exact hne (H1.mp (H3.mp hlim))
      · by_cases h1 : ((checks.foldl (invStep nodes)
            ⟨[], none, none⟩).components.any
              (fun c => c.status == AvailabilityStatus.out_of_stock)) = true
        · simp only [h1, Bool.true_or, if_true, hb]
          constructor
          · intro hlim
            refine ⟨Or.inl trivial, ?_⟩
            intro hemp
            exact hlim (H3.mpr (H1.mpr hemp))
          · intro ⟨_, hne⟩ hlim
            exact hne (H1.mp (H3.mp hlim))
        · have h1f := eq_false_of_ne_true h1
          simp only [h1f, h2, Bool.false_or, if_true, Bool.false_eq_true,
            if_false]
          constructor
          · intro hlim
            refine ⟨Or.inr trivial, ?_⟩
            intro hemp
            exact hlim (H3.mpr (H1.mpr hemp))
          · intro ⟨_, hne⟩ hlim
            exact hne (H1.mp (H3.mp hlim))
    · have hbf := eq_false_of_ne_true hb
      rw [Bool.or_eq_false_iff] at hbf
      obtain ⟨h1f, h2f⟩ := hbf
      simp only [h1f, h2f, Bool.or_self, Bool.false_eq_true, if_false]
      simp only [ne_eq, not_true_eq_false, false_iff, not_and, not_not]
      intro hst
      rcases hst with hst | hst <;> exact absurd hst (by simp)
  · intro c hc
    simp only [checkInventoryCore] at hc ⊢
    by_cases hb : (((checks.foldl (invStep nodes)
          ⟨[], none, none⟩).components.any
            (fun x => x.status == AvailabilityStatus.out_of_stock)) ||
        ((checks.foldl (invStep nodes) ⟨[], none, none⟩).components.any
            (fun x => x.status == AvailabilityStatus.limited))) = true
    · rw [if_pos hb] at hc
      obtain ⟨hmem, hval⟩ := H4 c hc
      refine ⟨hmem, ?_⟩
      cases hmm : (checks.foldl (invStep nodes) ⟨[], none, none⟩).minMax with
      | none =>
        rw [H3.mpr hmm] at hc
        exact Option.noConfusion hc
      | some mm =>
        rw [hval, hmm]
        rfl
    · rw [if_neg hb] at hc
      exact Option.noConfusion hc

/-- Counterexample to C4 as stated: with no inventory data returned, the
aggregate status is out_of_stock yet no limiting component is reported,
because no component defines a maxAddable bound. -/
theorem C4_counterexample :
    (checkInventoryFromStorefrontApi sampleFixedBundle none []).map
        (fun r => (r.status, r.limitingComponent)) =
      some (.out_of_stock, none) := by decide

/-- Witness for C4 on the limited-stock scenario: quantity 4 against a
required 2 yields the aggregate bound 2, the minimum over the defined
bounds. -/
theorem C4_witness :
    (checkInventoryCore [⟨"v1", true, some 4⟩] [⟨"p1", "v1", 2⟩]).maxQuantity ∈
      (checkInventoryCore [⟨"v1", true, some 4⟩]
        [⟨"p1", "v1", 2⟩]).components.filterMap (fun c => c.maxAddable) ∧
    ∀ b ∈ (checkInventoryCore [⟨"v1", true, some 4⟩]
        [⟨"p1", "v1", 2⟩]).components.filterMap (fun c => c.maxAddable),
      (checkInventoryCore [⟨"v1", true, some 4⟩]
        [⟨"p1", "v1", 2⟩]).maxQuantity ≤ b :=
  (C4_maxAddable_and_limiting [⟨"v1", true, some 4⟩]
    [⟨"p1", "v1", 2⟩]).2.2.2.2.1 (by decide)

/-! ## C6: discount type inference in the storefront parser -/

theorem eq_jsRound_iff (q : ℚ) :
    q = (jsRound q : ℚ) ↔ ∃ n : ℤ, q = (n : ℚ) := by
  constructor
  · intro h
    exact ⟨jsRound q, h⟩
  · rintro ⟨n, rfl⟩
    have hfl : ⌊(1 : ℚ) / 2⌋ = 0 := by
      rw [Int.floor_eq_zero_iff]
      constructor <;> norm_num
    simp only [jsRound]
    rw [add_comm ((n : ℚ)) (1 / 2), Int.floor_add_int, hfl, zero_add]

/-- C6: for every product the direct storefront path normalizes, the
inferred discountType is percentage exactly when the computed savings
percentage is an integer and fixed_amount otherwise, and discountValue is
the savings percentage in the first case and the savings amount in the
second. -/
theorem C6_discount_type_inference (p : StorefrontProduct)
    (d : BundleDefinition) (h : parseStorefrontResponse p = some d) :
    ∃ v, findBundleVariant p = some v ∧
      (d.pricing.discountType = .percentage ↔
        ∃ n : ℤ, parsedSavingsPercentage v = (n : ℚ)) ∧
      (d.pricing.discountType = .fixed_amount ↔
        ¬ ∃ n : ℤ, parsedSavingsPercentage v = (n : ℚ)) ∧
      (d.pricing.discountType = .percentage →
        d.pricing.discountValue = some (parsedSavingsPercentage v)) ∧
      (d.pricing.discountType = .fixed_amount →
        d.pricing.discountValue = some (parsedSavings v)) := by
  simp only [parseStorefrontResponse] at h
  obtain ⟨v, hfv, hd⟩ := Option.map_eq_some'.mp h
  subst hd
  by_cases hc : parsedSavingsPercentage v =
      (jsRound (parsedSavingsPercentage v) : ℚ)
  · have hex : ∃ n : ℤ, parsedSavingsPercentage v = (n : ℚ) :=
      (eq_jsRound_iff (parsedSavingsPercentage v)).mp hc
    have hdt : parsedDiscountType v = .percentage := by
      rw [parsedDiscountType, if_pos hc]
    refine ⟨v, hfv, ?_, ?_, ?_, ?_⟩ <;> simp [hdt, hex]
  · have hnex : ¬ ∃ n : ℤ, parsedSavingsPercentage v = (n : ℚ) :=
      fun hx => hc ((eq_jsRound_iff (parsedSavingsPercentage v)).mpr hx)
    have hdt : parsedDiscountType v = .fixed_amount := by
      rw [parsedDiscountType, if_neg hc]
    refine ⟨v, hfv, ?_, ?_, ?_, ?_⟩ <;> simp [hdt, hnex]

/-- Witness for C6 on the storefront fixture, whose savings percentage is
the integer 25. -/
theorem C6_witness :
    ∃ v, findBundleVariant sampleStorefrontProduct = some v ∧
      (sampleParsedBundle.pricing.discountType = .percentage ↔
        ∃ n : ℤ, parsedSavingsPercentage v = (n : ℚ)) ∧
      (sampleParsedBundle.pricing.discountType = .fixed_amount ↔
        ¬ ∃ n : ℤ, parsedSavingsPercentage v = (n : ℚ)) ∧
      (sampleParsedBundle.pricing.discountType = .percentage →
        sampleParsedBundle.pricing.discountValue =
          some (parsedSavingsPercentage v)) ∧
      (sampleParsedBundle.pricing.discountType = .fixed_amount →
        sampleParsedBundle.pricing.discountValue =
          some (parsedSavings v)) :=
  C6_discount_type_inference sampleStorefrontProduct sampleParsedBundle rfl

/-! ## C2: line construction -/

theorem buildLinesFrom_length (bid : String) (cust : List Attr) (q : Int)
    (total : Nat) :
    ∀ (cs : List BundleSelection) (idx : Nat),
      (buildLinesFrom bid cust q total idx cs).length = cs.length := by
  intro cs
  induction cs with
  | nil => intro idx; rfl
  | cons c cs2 ih =>
    intro idx
    simp only [buildLinesFrom, List.length_cons, ih]

theorem buildLinesFrom_get (bid : String) (cust : List Attr) (q : Int)
    (total : Nat) :
    ∀ (cs : List BundleSelection) (idx i : Nat) (hi : i < cs.length)
      (hl : i < (buildLinesFrom bid cust q total idx cs).length),
      (buildLinesFrom bid cust q total idx cs).get ⟨i, hl⟩ =
        mkBundleLine bid cust q total (idx + i) (cs.get ⟨i, hi⟩) := by
  intro cs
  induction cs with
  | nil => intro idx i hi; exact absurd hi (Nat.not_lt_zero i)
  | cons c cs2 ih =>
    intro idx i hi hl
    cases i with
    | zero => simp [buildLinesFrom]
    | succ j =>
      have hji : j < cs2.length := by simpa using Nat.lt_of_succ_lt_succ hi
      have hjl : j < (buildLinesFrom bid cust q total (idx + 1) cs2).length := by
        rw [buildLinesFrom_length]
        exact hji
      have hstep : (buildLinesFrom bid cust q total idx (c :: cs2)).get
          ⟨j + 1, hl⟩ =
          (buildLinesFrom bid cust q total (idx + 1) cs2).get ⟨j, hjl⟩ := rfl
      rw [hstep, ih (idx + 1) j hji hjl]
      have harith : idx + 1 + j = idx + (j + 1) := by omega
      rw [harith]
      rfl

theorem findAttrValue_mk_bundleProductId (bid : String) (cust : List Attr)
    (q : Int) (total idx : Nat) (c : BundleSelection) :
    findAttrValue (mkBundleLine bid cust q total idx c)
      BUNDLE_ATTRIBUTES.bundleProductId = some bid := by
  show ((buildBundleAttributes bid idx total c.productId ++ cust).find?
      (fun a => a.key == BUNDLE_ATTRIBUTES.bundleProductId)).map
        (fun a => a.value) = some bid
  rw [buildBundleAttributes, List.cons_append, List.cons_append,
    List.find?_cons_of_neg _ (by simp [BUNDLE_ATTRIBUTES.bundleParent, BUNDLE_ATTRIBUTES.bundleProductId, BUNDLE_ATTRIBUTES.componentIndex, BUNDLE_ATTRIBUTES.totalComponents, BUNDLE_ATTRIBUTES.componentProductId]), List.find?_cons_of_pos _ (by simp [BUNDLE_ATTRIBUTES.bundleParent, BUNDLE_ATTRIBUTES.bundleProductId, BUNDLE_ATTRIBUTES.componentIndex, BUNDLE_ATTRIBUTES.totalComponents, BUNDLE_ATTRIBUTES.componentProductId])]
  rfl

theorem findAttrValue_mk_componentIndex (bid : String) (cust : List Attr)
    (q : Int) (total idx : Nat) (c : BundleSelection) :
    findAttrValue (mkBundleLine bid cust q total idx c)
      BUNDLE_ATTRIBUTES.componentIndex = some (toString idx) := by
  show ((buildBundleAttributes bid idx total c.productId ++ cust).find?
      (fun a => a.key == BUNDLE_ATTRIBUTES.componentIndex)).map
        (fun a => a.value) = some (toString idx)
  rw [buildBundleAttributes, List.cons_append, List.cons_append,
    List.cons_append, List.find?_cons_of_neg _ (by simp [BUNDLE_ATTRIBUTES.bundleParent, BUNDLE_ATTRIBUTES.bundleProductId, BUNDLE_ATTRIBUTES.componentIndex, BUNDLE_ATTRIBUTES.totalComponents, BUNDLE_ATTRIBUTES.componentProductId]),
    List.find?_cons_of_neg _ (by simp [BUNDLE_ATTRIBUTES.bundleParent, BUNDLE_ATTRIBUTES.bundleProductId, BUNDLE_ATTRIBUTES.componentIndex, BUNDLE_ATTRIBUTES.totalComponents, BUNDLE_ATTRIBUTES.componentProductId]),
    List.find?_cons_of_pos _ (by simp [BUNDLE_ATTRIBUTES.bundleParent, BUNDLE_ATTRIBUTES.bundleProductId, BUNDLE_ATTRIBUTES.componentIndex, BUNDLE_ATTRIBUTES.totalComponents, BUNDLE_ATTRIBUTES.componentProductId])]
  rfl

theorem findAttrValue_mk_totalComponents (bid : String) (cust : List Attr)
    (q : Int) (total idx : Nat) (c : BundleSelection) :
    findAttrValue (mkBundleLine bid cust q total idx c)
      BUNDLE_ATTRIBUTES.totalComponents = some (toString total) := by
  show ((buildBundleAttributes bid idx total c.productId ++ cust).find?
      (fun a => a.key == BUNDLE_ATTRIBUTES.totalComponents)).map
        (fun a => a.value) = some (toString total)
  rw [buildBundleAttributes, List.cons_append, List.cons_append,
    List.cons_append, List.cons_append,
    List.find?_cons_of_neg _ (by simp [BUNDLE_ATTRIBUTES.bundleParent, BUNDLE_ATTRIBUTES.bundleProductId, BUNDLE_ATTRIBUTES.componentIndex, BUNDLE_ATTRIBUTES.totalComponents, BUNDLE_ATTRIBUTES.componentProductId]), List.find?_cons_of_neg _ (by simp [BUNDLE_ATTRIBUTES.bundleParent, BUNDLE_ATTRIBUTES.bundleProductId, BUNDLE_ATTRIBUTES.componentIndex, BUNDLE_ATTRIBUTES.totalComponents, BUNDLE_ATTRIBUTES.componentProductId]),
    List.find?_cons_of_neg _ (by simp [BUNDLE_ATTRIBUTES.bundleParent, BUNDLE_ATTRIBUTES.bundleProductId, BUNDLE_ATTRIBUTES.componentIndex, BUNDLE_ATTRIBUTES.totalComponents, BUNDLE_ATTRIBUTES.componentProductId]),
    List.find?_cons_of_pos _ (by simp [BUNDLE_ATTRIBUTES.bundleParent, BUNDLE_ATTRIBUTES.bundleProductId, BUNDLE_ATTRIBUTES.componentIndex, BUNDLE_ATTRIBUTES.totalComponents, BUNDLE_ATTRIBUTES.componentProductId])]
  rfl

/-- C2: one line per resolved component, in order: the merchandise id is the
resolved variant id, the quantity is the component quantity times the
requested bundle quantity (default 1), every line carries the bundle id and
the total component count, and the component index attributes are the
distinct strings 0..N-1 in iteration order. -/
theorem C2_line_construction (d : BundleDefinition) (input : AddBundleInput)
    (comps : List BundleSelection) (lines : List CartLine)
    (hres : resolveComponents d input.selectedComponents = some comps)
    (hbuild : buildBundleCartLines d input = some lines) :
    lines.length = comps.length ∧
    (∀ (i : Nat) (hi : i < comps.length) (hl : i < lines.length),
      (lines.get ⟨i, hl⟩).merchandiseId = (comps.get ⟨i, hi⟩).variantId ∧
      (lines.get ⟨i, hl⟩).quantity =
        (comps.get ⟨i, hi⟩).quantity * input.quantity.getD 1 ∧
      findAttrValue (lines.get ⟨i, hl⟩) BUNDLE_ATTRIBUTES.bundleProductId =
        some d.id ∧
      findAttrValue (lines.get ⟨i, hl⟩) BUNDLE_ATTRIBUTES.totalComponents =
        some (toString comps.length) ∧
      findAttrValue (lines.get ⟨i, hl⟩) BUNDLE_ATTRIBUTES.componentIndex =
        some (toString i)) ∧
    (∀ (i j : Nat) (hil : i < lines.length) (hjl : j < lines.length),
      i ≠ j →
      findAttrValue (lines.get ⟨i, hil⟩) BUNDLE_ATTRIBUTES.componentIndex ≠
        findAttrValue (lines.get ⟨j, hjl⟩)
          BUNDLE_ATTRIBUTES.componentIndex) := by
  have hlines : lines = buildLinesFrom d.id input.customAttributes
      (input.quantity.getD 1) comps.length 0 comps := by
    rw [buildBundleCartLines, hres] at hbuild
    exact (Option.some_inj.mp hbuild).symm
  subst hlines
  have hlen := buildLinesFrom_length d.id input.customAttributes
    (input.quantity.getD 1) comps.length comps 0
  refine ⟨hlen, ?_, ?_⟩
  · intro i hi hl
    rw [buildLinesFrom_get d.id input.customAttributes
      (input.quantity.getD 1) comps.length comps 0 i hi hl]
    rw [Nat.zero_add]
    exact ⟨rfl, rfl, findAttrValue_mk_bundleProductId _ _ _ _ _ _,
      findAttrValue_mk_totalComponents _ _ _ _ _ _,
      findAttrValue_mk_componentIndex _ _ _ _ _ _⟩
  · intro i j hil hjl hne
    have hi : i < comps.length := by rw [← hlen]; exact hil
    have hj : j < comps.length := by rw [← hlen]; exact hjl
    rw [buildLinesFrom_get d.id input.customAttributes
      (input.quantity.getD 1) comps.length comps 0 i hi hil,
      buildLinesFrom_get d.id input.customAttributes
      (input.quantity.getD 1) comps.length comps 0 j hj hjl,
      Nat.zero_add, Nat.zero_add,
      findAttrValue_mk_componentIndex, findAttrValue_mk_componentIndex]
    intro heq
    exact hne (toString_nat_injective (Option.some_inj.mp heq))

/-- Witness for C2 on the fixed fixture bundle with two components. -/
theorem C2_witness :
    sampleLines.length = sampleResolved.length :=
  (C2_line_construction sampleFixedBundle
    { bundleId := "gid://shopify/Product/100" } sampleResolved sampleLines
    (by decide) (by decide)).1

/-! ## C1: grouping round trip -/

theorem isBundleLine_mk (bid : String) (cust : List Attr) (q : Int)
    (total idx : Nat) (c : BundleSelection) :
    isBundleLine (mkBundleLine bid cust q total idx c) = true := by
  simp [isBundleLine, mkBundleLine, buildBundleAttributes]

theorem bundleInfo_foldl_preserve (l : List Attr) :
    ∀ (a : BundleLineAttributes),
      (∀ p ∈ l, p.key ≠ BUNDLE_ATTRIBUTES.bundleProductId) →
      (l.foldl bundleInfoStep a).bundleProductId = a.bundleProductId := by
  induction l with
  | nil => intro a _; rfl
  | cons p rest ih =>
    intro a h
    have hp := h p (List.mem_cons_self p rest)
    rw [List.foldl_cons, ih _ (fun x hx => h x (List.mem_cons_of_mem p hx))]
    by_cases h1 : (p.key == BUNDLE_ATTRIBUTES.bundleParent) = true
    · simp [bundleInfoStep, h1]
    · have h2 : (p.key == BUNDLE_ATTRIBUTES.bundleProductId) = false := by
        simpa using hp
      by_cases h3 : (p.key == BUNDLE_ATTRIBUTES.componentIndex) = true
      · simp [bundleInfoStep, h1, h2, h3]
      · simp [bundleInfoStep, h1, h2, h3]

theorem getBundleInfo_mk (bid : String) (cust : List Attr) (q : Int)
    (total idx : Nat) (c : BundleSelection)
    (hcust : ∀ p ∈ cust, p.key ≠ BUNDLE_ATTRIBUTES.bundleProductId) :
    (getBundleInfoFromLine
      (mkBundleLine bid cust q total idx c)).bundleProductId = some bid := by
  show ((buildBundleAttributes bid idx total c.productId ++ cust).foldl
      bundleInfoStep {}).bundleProductId = some bid
  rw [List.foldl_append, bundleInfo_foldl_preserve cust _ hcust]
  rfl

theorem buildLinesFrom_mem (bid : String) (cust : List Attr) (q : Int)
    (total : Nat)
    (hcust : ∀ p ∈ cust, p.key ≠ BUNDLE_ATTRIBUTES.bundleProductId) :
    ∀ (cs : List BundleSelection) (idx : Nat) (l : CartLine),
      l ∈ buildLinesFrom bid cust q total idx cs →
      isBundleLine l = true ∧
      (getBundleInfoFromLine l).bundleProductId = some bid := by
  intro cs
  induction cs with
  | nil => intro idx l hl; exact absurd hl (List.not_mem_nil l)
  | cons c cs2 ih =>
    intro idx l hl
    rcases List.mem_cons.mp hl with hl | hl
    · subst hl
      exact ⟨isBundleLine_mk bid cust q total idx c,
        getBundleInfo_mk bid cust q total idx c hcust⟩
    · exact ih (idx + 1) l hl

theorem groupStep_same (B : String) (hB : (B == "") = false)
    (acc : List CartLine) (line : CartLine)
    (h1 : isBundleLine line = true)
    (h2 : (getBundleInfoFromLine line).bundleProductId = some B) :
    groupStep [(B, ⟨B, acc⟩)] line = [(B, ⟨B, acc ++ [line]⟩)] := by
  simp [groupStep, h1, h2, hB, insertGroupLine]

theorem groupStep_start (B : String) (hB : (B == "") = false)
    (line : CartLine)
    (h1 : isBundleLine line = true)
    (h2 : (getBundleInfoFromLine line).bundleProductId = some B) :
    groupStep [] line = [(B, ⟨B, [line]⟩)] := by
  simp [groupStep, h1, h2, hB, insertGroupLine]

theorem foldl_groupStep_const (B : String) (hB : (B == "") = false) :
    ∀ (lines : List CartLine) (acc : List CartLine),
      (∀ l ∈ lines, isBundleLine l = true ∧
        (getBundleInfoFromLine l).bundleProductId = some B) →
      lines.foldl groupStep [(B, ⟨B, acc⟩)] = [(B, ⟨B, acc ++ lines⟩)] := by
  intro lines
  induction lines with
  | nil => intro acc _; simp
  | cons l rest ih =>
    intro acc h
    obtain ⟨h1, h2⟩ := h l (List.mem_cons_self l rest)
    rw [List.foldl_cons, groupStep_same B hB acc l h1 h2,
      ih (acc ++ [l]) (fun x hx => h x (List.mem_cons_of_mem l hx))]
    simp

/-- C1, amended: provided the bundle id is a non-empty string and no custom
attribute reuses the reserved bundle-product-id key, grouping the built cart
lines yields exactly one group, keyed by the bundle id, whose line list is
exactly the built lines in build order (hence with component indices 0..N-1
preserved).  (As stated the claim fails: an empty-string bundle id is falsy
in the grouping check and all its lines are dropped, and a custom attribute
under the reserved key overrides the group key.) -/
theorem C1_grouping_roundtrip (d : BundleDefinition) (input : AddBundleInput)
    (comps : List BundleSelection) (lines : List CartLine)
    (hres : resolveComponents d input.selectedComponents = some comps)
    (hbuild : buildBundleCartLines d input = some lines)
    (hne : comps ≠ [])
    (hid : d.id ≠ "")
    (hcust : ∀ a ∈ input.customAttributes,
      a.key ≠ BUNDLE_ATTRIBUTES.bundleProductId) :
    lines.length = comps.length ∧
    groupCartLinesByBundle lines = [(d.id, ⟨d.id, lines⟩)] := by
  have hBf : (d.id == "") = false := by simpa using hid
  have hlines : lines = buildLinesFrom d.id input.customAttributes
      (input.quantity.getD 1) comps.length 0 comps := by
    rw [buildBundleCartLines, hres] at hbuild
    exact (Option.some_inj.mp hbuild).symm
  subst hlines
  refine ⟨buildLinesFrom_length _ _ _ _ comps 0, ?_⟩
  have hall := buildLinesFrom_mem d.id input.customAttributes
    (input.quantity.getD 1) comps.length hcust comps 0
  cases hcs : comps with
  | nil => exact absurd hcs hne
  | cons c cs2 =>
    subst hcs
    show (buildLinesFrom d.id input.customAttributes (input.quantity.getD 1)
      (c :: cs2).length 0 (c :: cs2)).foldl groupStep [] = _
    rw [show buildLinesFrom d.id input.customAttributes
        (input.quantity.getD 1) (c :: cs2).length 0 (c :: cs2) =
        mkBundleLine d.id input.customAttributes (input.quantity.getD 1)
          (c :: cs2).length 0 c ::
        buildLinesFrom d.id input.customAttributes (input.quantity.getD 1)
          (c :: cs2).length 1 cs2 from rfl]
    rw [List.foldl_cons]
    obtain ⟨g1, g2⟩ := hall _ (List.mem_cons_self _ _)
    rw [groupStep_start d.id hBf _ g1 g2]
    rw [foldl_groupStep_const d.id hBf _ [_]
      (fun x hx => hall x (List.mem_cons_of_mem _ hx))]
    rfl

/-- Counterexample to C1 as stated: a bundle whose id is the empty string
builds one line per component, but grouping those lines yields no group at
all, because the empty-string bundle id is falsy. -/
theorem C1_counterexample :
    buildBundleCartLines emptyIdBundle { bundleId := "" } =
      some emptyIdLines ∧
    emptyIdLines.length = 2 ∧
    groupCartLinesByBundle emptyIdLines = [] := by decide

/-- Witness for C1 on the fixed fixture bundle: two lines, one group under
the bundle id holding both lines in order. -/
theorem C1_witness :
    sampleLines.length = sampleResolved.length ∧
    groupCartLinesByBundle sampleLines =
      [(sampleFixedBundle.id, ⟨sampleFixedBundle.id, sampleLines⟩)] :=
  C1_grouping_roundtrip sampleFixedBundle
    { bundleId := "gid://shopify/Product/100" } sampleResolved sampleLines
    (by decide) (by decide) (by decide) (by decide) (by decide)

end HydrogenBundles
